import Mathlib

/-!
Shallow embedding of the DNS server repository (src/dns.rs and src/main.rs).

Conventions of the embedding:
* Rust `u8`/`u16`/`u32` values are `Nat`; wherever the source performs a
  narrowing cast (`as u8`, `as u16`) the embedding takes the value modulo the
  corresponding power of two.  Range side conditions (`< 2 ^ w`) appear as
  hypotheses of the theorems, mirroring the Rust types.
* A Rust `String` is represented by the list of its UTF-8 bytes together with
  the decidable predicate `utf8Valid`; `String::from_utf8` succeeds exactly on
  byte sequences satisfying `utf8Valid` and returns the same bytes.
* The nom parsers of the source are total functions
  `List Nat → Except PErr (List Nat × α)` returning the unconsumed input and
  the parsed value; the spec's error taxonomy is `Truncated` (not enough
  input for a fixed-size field or a declared length) and `MalformedLabel`
  (the `map_res`/`String::from_utf8` failure in `parse_domain_label`).
-/

namespace DnsRepo

/-- Error kinds of the codec, per the spec's error taxonomy (section 7). -/
inductive PErr where
  | Truncated
  | MalformedLabel
deriving DecidableEq, Repr

deriving instance DecidableEq for Except

/-- Big-endian bytes of a 16-bit value: `u16::to_be_bytes` (of `v % 2 ^ 16`). -/
def u16be (v : Nat) : List Nat := [v / 256 % 256, v % 256]

/-- Big-endian bytes of a 32-bit value: `u32::to_be_bytes` (of `v % 2 ^ 32`). -/
def u32be (v : Nat) : List Nat :=
  [v / 16777216 % 256, v / 65536 % 256, v / 256 % 256, v % 256]

/-- nom `be_u8`: one byte. -/
def be_u8 : List Nat → Except PErr (List Nat × Nat)
  | [] => .error .Truncated
  | b :: rest => .ok (rest, b)

/-- nom `be_u16`: two bytes, big endian. -/
def be_u16 : List Nat → Except PErr (List Nat × Nat)
  | b0 :: b1 :: rest => .ok (rest, b0 * 256 + b1)
  | _ => .error .Truncated

/-- nom `be_u32`: four bytes, big endian. -/
def be_u32 : List Nat → Except PErr (List Nat × Nat)
  | b0 :: b1 :: b2 :: b3 :: rest =>
    .ok (rest, ((b0 * 256 + b1) * 256 + b2) * 256 + b3)
  | _ => .error .Truncated

/-- nom `bytes::complete::take(n)`: exactly `n` raw bytes. -/
def take_bytes (n : Nat) (input : List Nat) : Except PErr (List Nat × List Nat) :=
  if n ≤ input.length then .ok (input.drop n, input.take n) else .error .Truncated

/-- Continuation byte of a UTF-8 sequence (`0x80 ..= 0xBF`). -/
def isCont (b : Nat) : Bool := 128 ≤ b && b ≤ 191

/-- Validity of a byte sequence as UTF-8, the success condition of
`String::from_utf8` used by `parse_domain_label` via `map_res`. -/
def utf8Valid : List Nat → Bool
  | [] => true
  | b :: rest =>
    if b ≤ 127 then utf8Valid rest
    else if 194 ≤ b && b ≤ 223 then
      match rest with
      | c1 :: rest2 => isCont c1 && utf8Valid rest2
      | [] => false
    else if b = 224 then
      match rest with
      | c1 :: c2 :: rest2 => (160 ≤ c1 && c1 ≤ 191) && isCont c2 && utf8Valid rest2
      | _ => false
    else if 225 ≤ b && b ≤ 236 then
      match rest with
      | c1 :: c2 :: rest2 => isCont c1 && isCont c2 && utf8Valid rest2
      | _ => false
    else if b = 237 then
      match rest with
      | c1 :: c2 :: rest2 => (128 ≤ c1 && c1 ≤ 159) && isCont c2 && utf8Valid rest2
      | _ => false
    else if 238 ≤ b && b ≤ 239 then
      match rest with
      | c1 :: c2 :: rest2 => isCont c1 && isCont c2 && utf8Valid rest2
      | _ => false
    else if b = 240 then
      match rest with
      | c1 :: c2 :: c3 :: rest2 =>
        (144 ≤ c1 && c1 ≤ 191) && isCont c2 && isCont c3 && utf8Valid rest2
      | _ => false
    else if 241 ≤ b && b ≤ 243 then
      match rest with
      | c1 :: c2 :: c3 :: rest2 => isCont c1 && isCont c2 && isCont c3 && utf8Valid rest2
      | _ => false
    else if b = 244 then
      match rest with
      | c1 :: c2 :: c3 :: rest2 =>
        (128 ≤ c1 && c1 ≤ 143) && isCont c2 && isCont c3 && utf8Valid rest2
      | _ => false
    else false

/-- A label: the UTF-8 bytes of one `String` segment of a domain name. -/
abbrev Label := List Nat

/-- `DnsLabels` of src/dns.rs: `Vec<String>`. -/
abbrev DnsLabels := List Label

/-- `DnsHeader` of src/dns.rs (identical struct in src/main.rs). -/
structure DnsHeader where
  id : Nat
  qr : Nat
  opcode : Nat
  aa : Nat
  tc : Nat
  rd : Nat
  ra : Nat
  z : Nat
  rcode : Nat
  qdcount : Nat
  ancount : Nat
  nscount : Nat
  arcount : Nat
deriving DecidableEq, Repr

/-- `DnsQuestion` of src/dns.rs. -/
structure DnsQuestion where
  qname : DnsLabels
  qtype : Nat
  qclass : Nat
deriving DecidableEq, Repr

/-- `DnsAnswer` of src/dns.rs (`class` is a Lean keyword, hence `class_`). -/
structure DnsAnswer where
  name : DnsLabels
  answer_type : Nat
  class_ : Nat
  ttl : Nat
  data : List Nat
deriving DecidableEq, Repr

/-- `DnsMessage` of src/dns.rs. -/
structure DnsMessage where
  header : DnsHeader
  questions : List DnsQuestion
  answers : List DnsAnswer
deriving DecidableEq, Repr

/-- One iteration of the encoding loop in `DnsLabels::to_bytes`: the length
byte (`label.len() as u8`) followed by the label's raw bytes. -/
def labelBytes (l : Label) : List Nat := (l.length % 256) :: l

/-- The label bytes emitted by the loop of `DnsLabels::to_bytes`, without the
trailing zero terminator. -/
def labelsBody (ls : DnsLabels) : List Nat := (ls.map labelBytes).flatten

/-- `DnsLabels::to_bytes`: each label length-prefixed, then a zero byte. -/
def DnsLabels.to_bytes (ls : DnsLabels) : List Nat := labelsBody ls ++ [0]

/-- `DnsHeader::to_bytes`: id, two packed flag bytes, four counts. The
`% 256` reflects that the packed expressions are computed in `u8`. -/
def DnsHeader.to_bytes (h : DnsHeader) : List Nat :=
  u16be h.id ++
  [(h.qr <<< 7 ||| h.opcode <<< 3 ||| h.aa <<< 2 ||| h.tc <<< 1 ||| h.rd) % 256,
   (h.ra <<< 7 ||| h.z <<< 4 ||| h.rcode) % 256] ++
  u16be h.qdcount ++ u16be h.ancount ++ u16be h.nscount ++ u16be h.arcount

/-- `DnsQuestion::to_bytes`. -/
def DnsQuestion.to_bytes (q : DnsQuestion) : List Nat :=
  DnsLabels.to_bytes q.qname ++ u16be q.qtype ++ u16be q.qclass

/-- `DnsAnswer::to_bytes`: name, type, class, ttl, rdata length
(`data.len() as u16`), rdata bytes. -/
def DnsAnswer.to_bytes (a : DnsAnswer) : List Nat :=
  DnsLabels.to_bytes a.name ++ u16be a.answer_type ++ u16be a.class_ ++
  u32be a.ttl ++ u16be a.data.length ++ a.data

/-- `DnsMessage::to_bytes`: header, then questions in order, then answers. -/
def DnsMessage.to_bytes (m : DnsMessage) : List Nat :=
  DnsHeader.to_bytes m.header ++
  (m.questions.map DnsQuestion.to_bytes).flatten ++
  (m.answers.map DnsAnswer.to_bytes).flatten

/-- Label "codecrafters" as UTF-8 bytes. -/
def codecraftersLabel : Label := [99, 111, 100, 101, 99, 114, 97, 102, 116, 101, 114, 115]

/-- Label "io" as UTF-8 bytes. -/
def ioLabel : Label := [105, 111]

/-- `response` of src/dns.rs: the Response Builder. -/
def response (req : DnsMessage) : DnsMessage :=
  { header :=
      { id := req.header.id
        qr := 1
        opcode := req.header.opcode
        aa := 0
        tc := 0
        rd := req.header.rd
        ra := 0
        z := 0
        rcode := if req.header.opcode = 0 then 0 else 4
        qdcount := 1
        ancount := 1
        nscount := 0
        arcount := 0 }
    questions := [{ qname := [codecraftersLabel, ioLabel], qtype := 1, qclass := 1 }]
    answers := [{ name := [codecraftersLabel, ioLabel], answer_type := 1, class_ := 1,
                  ttl := 60, data := [8, 8, 8, 8] }] }

/-- `dns_header_bits` of src/dns.rs: the eight bitfields taken MSB-first from
two bytes (widths 1/4/1/1/1 and 1/3/4). -/
def dns_header_bits (input : List Nat) :
    Except PErr (List Nat × (Nat × Nat × Nat × Nat × Nat × Nat × Nat × Nat)) :=
  match input with
  | b0 :: b1 :: rest =>
    .ok (rest, (b0 >>> 7 &&& 1, b0 >>> 3 &&& 15, b0 >>> 2 &&& 1, b0 >>> 1 &&& 1, b0 &&& 1,
                b1 >>> 7 &&& 1, b1 >>> 4 &&& 7, b1 &&& 15))
  | _ => .error .Truncated

/-- `dns_header` of src/dns.rs. -/
def dns_header (input : List Nat) : Except PErr (List Nat × DnsHeader) :=
  match be_u16 input with
  | .error e => .error e
  | .ok (input, id) =>
    match dns_header_bits input with
    | .error e => .error e
    | .ok (input, (qr, opcode, aa, tc, rd, ra, z, rcode)) =>
      match be_u16 input with
      | .error e => .error e
      | .ok (input, qdcount) =>
        match be_u16 input with
        | .error e => .error e
        | .ok (input, ancount) =>
          match be_u16 input with
          | .error e => .error e
          | .ok (input, nscount) =>
            match be_u16 input with
            | .error e => .error e
            | .ok (input, arcount) =>
              .ok (input, { id := id, qr := qr, opcode := opcode, aa := aa, tc := tc,
                            rd := rd, ra := ra, z := z, rcode := rcode,
                            qdcount := qdcount, ancount := ancount,
                            nscount := nscount, arcount := arcount })

/-- `parse_domain_label` of src/dns.rs: a length byte; zero terminates, else
that many bytes which must be valid text (`map_res` with `String::from_utf8`). -/
def parse_domain_label (input : List Nat) : Except PErr (List Nat × Option Label) :=
  match be_u8 input with
  | .error e => .error e
  | .ok (rest, length) =>
    if length = 0 then .ok (rest, none)
    else
      match take_bytes length rest with
      | .error e => .error e
      | .ok (rest2, bytes) =>
        if utf8Valid bytes then .ok (rest2, some bytes) else .error .MalformedLabel

/-- `dns_labels` of src/dns.rs: loop reading labels until the terminator.
Termination: a successfully parsed label consumes at least its length byte. -/
def dns_labels (input : List Nat) : Except PErr (List Nat × DnsLabels) :=
  match h : parse_domain_label input with
  | .error e => .error e
  | .ok (rest, none) => .ok (rest, [])
  | .ok (rest, some l) =>
    match dns_labels rest with
    | .error e => .error e
    | .ok (rest2, ls) => .ok (rest2, l :: ls)
termination_by input.length
decreasing_by
  rcases input with _ | ⟨b, r⟩
  · simp [parse_domain_label, be_u8] at h
  · by_cases hb : b = 0
    · simp [parse_domain_label, be_u8, hb] at h
    · by_cases hle : b ≤ r.length
      · by_cases hv : utf8Valid (r.take b)
        · simp [parse_domain_label, be_u8, take_bytes, hb, hle, hv] at h
          obtain ⟨h1, _⟩ := h
          subst h1
          simp only [List.length_drop, List.length_cons]
          omega
        · simp [parse_domain_label, be_u8, take_bytes, hb, hle, hv] at h
      · simp [parse_domain_label, be_u8, take_bytes, hb, hle] at h

/-- `dns_question` of src/dns.rs. -/
def dns_question (input : List Nat) : Except PErr (List Nat × DnsQuestion) :=
  match dns_labels input with
  | .error e => .error e
  | .ok (input, qname) =>
    match be_u16 input with
    | .error e => .error e
    | .ok (input, qtype) =>
      match be_u16 input with
      | .error e => .error e
      | .ok (input, qclass) => .ok (input, { qname := qname, qtype := qtype, qclass := qclass })

/-- `dns_answer` of src/dns.rs. -/
def dns_answer (input : List Nat) : Except PErr (List Nat × DnsAnswer) :=
  match dns_labels input with
  | .error e => .error e
  | .ok (input, name) =>
    match be_u16 input with
    | .error e => .error e
    | .ok (input, answer_type) =>
      match be_u16 input with
      | .error e => .error e
      | .ok (input, class_) =>
        match be_u32 input with
        | .error e => .error e
        | .ok (input, ttl) =>
          match be_u16 input with
          | .error e => .error e
          | .ok (input, length) =>
            match take_bytes length input with
            | .error e => .error e
            | .ok (input, data) =>
              .ok (input, { name := name, answer_type := answer_type, class_ := class_,
                            ttl := ttl, data := data })

/-- nom `multi::count`: apply a parser a fixed number of times. -/
def pcount {α : Type} (p : List Nat → Except PErr (List Nat × α)) :
    Nat → List Nat → Except PErr (List Nat × List α)
  | 0, input => .ok (input, [])
  | n + 1, input =>
    match p input with
    | .error e => .error e
    | .ok (rest, x) =>
      match pcount p n rest with
      | .error e => .error e
      | .ok (rest2, xs) => .ok (rest2, x :: xs)

/-- `dns_msg` of src/dns.rs: header, then `qdcount` questions, then `ancount`
answers. -/
def dns_msg (input : List Nat) : Except PErr (List Nat × DnsMessage) :=
  match dns_header input with
  | .error e => .error e
  | .ok (input, header) =>
    match pcount dns_question header.qdcount input with
    | .error e => .error e
    | .ok (input, questions) =>
      match pcount dns_answer header.ancount input with
      | .error e => .error e
      | .ok (input, answers) =>
        .ok (input, { header := header, questions := questions, answers := answers })

/-- Well-formedness of one text label: non-empty, at most 255 bytes (so the
`as u8` length cast is lossless), and valid UTF-8 text. -/
def goodLabel (l : Label) : Prop := l ≠ [] ∧ l.length ≤ 255 ∧ utf8Valid l = true

instance (l : Label) : Decidable (goodLabel l) := by
  unfold goodLabel
  infer_instance

/-- Well-formedness of a header value: every field fits the bit width that
`DnsHeader::to_bytes` packs it into. -/
def goodHeader (h : DnsHeader) : Prop :=
  h.id < 65536 ∧ h.qr < 2 ∧ h.opcode < 16 ∧ h.aa < 2 ∧ h.tc < 2 ∧ h.rd < 2 ∧
  h.ra < 2 ∧ h.z < 8 ∧ h.rcode < 16 ∧
  h.qdcount < 65536 ∧ h.ancount < 65536 ∧ h.nscount < 65536 ∧ h.arcount < 65536

instance (h : DnsHeader) : Decidable (goodHeader h) := by
  unfold goodHeader
  infer_instance

/-- Well-formedness of a question: good labels and 16-bit type and class. -/
def goodQuestion (q : DnsQuestion) : Prop :=
  (∀ l ∈ q.qname, goodLabel l) ∧ q.qtype < 65536 ∧ q.qclass < 65536

instance (q : DnsQuestion) : Decidable (goodQuestion q) := by
  unfold goodQuestion
  infer_instance

/-- Well-formedness of an answer: good labels, 16-bit type and class, 32-bit
ttl, and rdata shorter than 2 ^ 16 (so the `as u16` length cast is lossless). -/
def goodAnswer (a : DnsAnswer) : Prop :=
  (∀ l ∈ a.name, goodLabel l) ∧ a.answer_type < 65536 ∧ a.class_ < 65536 ∧
  a.ttl < 4294967296 ∧ a.data.length < 65536

instance (a : DnsAnswer) : Decidable (goodAnswer a) := by
  unfold goodAnswer
  infer_instance

/-- Well-formedness of a whole message: well-formed header whose counts equal
the actual numbers of question and answer records, and well-formed records. -/
def goodMessage (m : DnsMessage) : Prop :=
  goodHeader m.header ∧
  m.header.qdcount = m.questions.length ∧ m.header.ancount = m.answers.length ∧
  (∀ q ∈ m.questions, goodQuestion q) ∧ (∀ a ∈ m.answers, goodAnswer a)

instance (m : DnsMessage) : Decidable (goodMessage m) := by
  unfold goodMessage
  infer_instance


/-- `DnsQuestion` of src/main.rs (field `class` renamed to `class_`). -/
structure MainDnsQuestion where
  labels : DnsLabels
  q_type : Nat
  class_ : Nat
deriving DecidableEq, Repr

/-- `DnsMessage` of src/main.rs: a header and an optional question. -/
structure MainDnsMessage where
  header : DnsHeader
  question : Option MainDnsQuestion
deriving DecidableEq, Repr

/-- `DnsQuestion::to_bytes` of src/main.rs. -/
def MainDnsQuestion.to_bytes (q : MainDnsQuestion) : List Nat :=
  DnsLabels.to_bytes q.labels ++ u16be q.q_type ++ u16be q.class_

/-- `DnsMessage::to_bytes` of src/main.rs. -/
def MainDnsMessage.to_bytes (m : MainDnsMessage) : List Nat :=
  DnsHeader.to_bytes m.header ++
    (match m.question with
     | some q => MainDnsQuestion.to_bytes q
     | none => [])

/-- `dns_header` of src/main.rs.  Unlike the src/dns.rs parser it reads the
flag fields with `bytes::complete::take`, i.e. whole BYTES, not bits: one
byte for `qr`, then 4/1/1/1/1/3/4 bytes whose first byte (`field[0]`) becomes
the field value (the `headD 0` is that indexing, guaranteed in range by the
preceding successful `take`). -/
def main_dns_header (input : List Nat) : Except PErr (List Nat × DnsHeader) :=
  match be_u16 input with
  | .error e => .error e
  | .ok (input, id) =>
  match be_u8 input with
  | .error e => .error e
  | .ok (input, qr) =>
  match take_bytes 4 input with
  | .error e => .error e
  | .ok (input, opcode) =>
  match take_bytes 1 input with
  | .error e => .error e
  | .ok (input, aa) =>
  match take_bytes 1 input with
  | .error e => .error e
  | .ok (input, tc) =>
  match take_bytes 1 input with
  | .error e => .error e
  | .ok (input, rd) =>
  match take_bytes 1 input with
  | .error e => .error e
  | .ok (input, ra) =>
  match take_bytes 3 input with
  | .error e => .error e
  | .ok (input, z) =>
  match take_bytes 4 input with
  | .error e => .error e
  | .ok (input, rcode) =>
  match be_u16 input with
  | .error e => .error e
  | .ok (input, qdcount) =>
  match be_u16 input with
  | .error e => .error e
  | .ok (input, ancount) =>
  match be_u16 input with
  | .error e => .error e
  | .ok (input, nscount) =>
  match be_u16 input with
  | .error e => .error e
  | .ok (input, arcount) =>
    .ok (input, { id := id, qr := qr, opcode := opcode.headD 0, aa := aa.headD 0,
                  tc := tc.headD 0, rd := rd.headD 0, ra := ra.headD 0, z := z.headD 0,
                  rcode := rcode.headD 0, qdcount := qdcount, ancount := ancount,
                  nscount := nscount, arcount := arcount })

/-- The message the response actor of src/main.rs builds from a decoded
request header: echoes the id, zeroes every other header field (`qr = 0`,
all counts 0) and embeds one fixed codecrafters/io question. -/
def main_handler_message (req : DnsHeader) : MainDnsMessage :=
  { header := { id := req.id, qr := 0, opcode := 0, aa := 0, tc := 0, rd := 0,
                ra := 0, z := 0, rcode := 0, qdcount := 0, ancount := 0,
                nscount := 0, arcount := 0 }
    question := some { labels := [codecraftersLabel, ioLabel], q_type := 1, class_ := 1 } }

/-- The per-datagram behaviour of the response actor of src/main.rs: decode
the header with `main_dns_header`; on failure skip (send nothing), on success
send the bytes of `main_handler_message`. -/
def main_handler (bytes : List Nat) : Option (List Nat) :=
  match main_dns_header bytes with
  | .ok (_, req) => some (MainDnsMessage.to_bytes (main_handler_message req))
  | .error _ => none

/-- A message containing an empty-string label somewhere. -/
def hasEmptyLabel (m : DnsMessage) : Prop :=
  (∃ q ∈ m.questions, [] ∈ q.qname) ∨ (∃ a ∈ m.answers, [] ∈ a.name)

instance (m : DnsMessage) : Decidable (hasEmptyLabel m) := by
  unfold hasEmptyLabel
  infer_instance

/-- Label "google" as UTF-8 bytes. -/
def googleLabel : Label := [103, 111, 111, 103, 108, 101]

/-- Label "com" as UTF-8 bytes. -/
def comLabel : Label := [99, 111, 109]

/-- The message of the `test_round_trip` test in src/dns.rs. -/
def testMessage : DnsMessage :=
  { header := { id := 1234, qr := 1, opcode := 0, aa := 0, tc := 0, rd := 0, ra := 0,
                z := 0, rcode := 0, qdcount := 1, ancount := 1, nscount := 0, arcount := 0 }
    questions := [{ qname := [googleLabel, comLabel], qtype := 1, qclass := 1 }]
    answers := [{ name := [googleLabel, comLabel], answer_type := 0, class_ := 0,
                  ttl := 0, data := [] }] }

/-- A constructible message whose `qr` field does not fit its 1-bit width. -/
def cexBadQr : DnsMessage :=
  { header := { id := 0, qr := 2, opcode := 0, aa := 0, tc := 0, rd := 0, ra := 0,
                z := 0, rcode := 0, qdcount := 0, ancount := 0, nscount := 0, arcount := 0 }
    questions := []
    answers := [] }

/-- A constructible message carrying one question while its header declares
`qdcount = 0`. -/
def cexBadCount : DnsMessage :=
  { header := { id := 0, qr := 0, opcode := 0, aa := 0, tc := 0, rd := 0, ra := 0,
                z := 0, rcode := 0, qdcount := 0, ancount := 0, nscount := 0, arcount := 0 }
    questions := [{ qname := [ioLabel], qtype := 1, qclass := 1 }]
    answers := [] }

/-- A 26-byte datagram (id 1234, all other bytes zero): long enough for the
byte-oriented header parser of src/main.rs to succeed. -/
def c3_datagram : List Nat :=
  [4, 210, 0, 0, 0, 0, 0, 0, 0, 0, 0, 0, 0, 0, 0, 0, 0, 0, 0, 0, 0, 0, 0, 0, 0, 0]

/-- The header both parsers extract from `c3_datagram`. -/
def c3_request : DnsHeader :=
  { id := 1234, qr := 0, opcode := 0, aa := 0, tc := 0, rd := 0, ra := 0, z := 0,
    rcode := 0, qdcount := 0, ancount := 0, nscount := 0, arcount := 0 }

/-- The message the src/dns.rs message codec decodes from `c3_datagram`. -/
def c3_decoded_request : DnsMessage :=
  { header := c3_request, questions := [], answers := [] }

/-- Header declaring one question and zero answers (id 7, no flags). -/
def c5_hdr : DnsHeader :=
  { id := 7, qr := 0, opcode := 0, aa := 0, tc := 0, rd := 0, ra := 0, z := 0,
    rcode := 0, qdcount := 1, ancount := 0, nscount := 0, arcount := 0 }

/-- Question for the io label, type 1, class 1. -/
def c5_q : DnsQuestion := { qname := [ioLabel], qtype := 1, qclass := 1 }

/-- The question section bytes of `c5_q` followed by two trailing junk bytes. -/
def c5_body : List Nat := [2, 105, 111, 0, 0, 1, 0, 1, 9, 9]

/-- A datagram with header `c5_hdr`, one question and trailing junk bytes. -/
def c5_datagram : List Nat := [0, 7, 0, 0, 0, 1, 0, 0, 0, 0, 0, 0] ++ c5_body

/-- A header with the query/response flag set and all other flag fields 0. -/
def c7_hdr : DnsHeader :=
  { id := 1234, qr := 1, opcode := 0, aa := 0, tc := 0, rd := 0, ra := 0, z := 0,
    rcode := 0, qdcount := 1, ancount := 1, nscount := 0, arcount := 0 }

/-- Answer bytes after an empty name: type 1, class 1, ttl 60, declared rdata
length 4 but only two bytes remaining. -/
def c8_body : List Nat := u16be 1 ++ u16be 1 ++ u32be 60 ++ u16be 4 ++ [8, 8]

/-- An answer record whose declared rdata length exceeds the remaining input. -/
def c8_input : List Nat := 0 :: c8_body

/-- A message containing an empty-string label in its only question. -/
def c10_empty_msg : DnsMessage :=
  { header := { id := 0, qr := 0, opcode := 0, aa := 0, tc := 0, rd := 0, ra := 0,
                z := 0, rcode := 0, qdcount := 1, ancount := 0, nscount := 0, arcount := 0 }
    questions := [{ qname := [[]], qtype := 1, qclass := 1 }]
    answers := [] }

/-- When `parse_domain_label` reports the terminator, `dns_labels` stops. -/
theorem dns_labels_none {input rest : List Nat}
    (hp : parse_domain_label input = .ok (rest, none)) :
    dns_labels input = .ok (rest, []) := by
  unfold dns_labels
  split
  · simp_all
  · simp_all
  · simp_all

/-- An error of `parse_domain_label` propagates out of `dns_labels`. -/
theorem dns_labels_err {input : List Nat} {e : PErr}
    (hp : parse_domain_label input = .error e) :
    dns_labels input = .error e := by
  unfold dns_labels
  split
  · simp_all
  · simp_all
  · simp_all

/-- One unfolding of the `dns_labels` loop after a successful label. -/
theorem dns_labels_some {input rest : List Nat} {l : Label}
    (hp : parse_domain_label input = .ok (rest, some l)) :
    dns_labels input =
      match dns_labels rest with
      | .error e => .error e
      | .ok (rest2, ls) => .ok (rest2, l :: ls) := by
  conv_lhs => unfold dns_labels
  split
  · simp_all
  · simp_all
  · rename_i r2 l2 heq
    rw [hp] at heq
    simp only [Except.ok.injEq, Prod.mk.injEq, Option.some.injEq] at heq
    obtain ⟨h1, h2⟩ := heq
    subst h1
    subst h2
    rfl

/-- Decoding back two big-endian bytes of a 16-bit value. -/
theorem u16be_round {v : Nat} (hv : v < 65536) (rest : List Nat) :
    be_u16 (u16be v ++ rest) = .ok (rest, v) := by
  simp only [u16be, List.cons_append, List.nil_append, be_u16, Except.ok.injEq,
    Prod.mk.injEq, true_and]
  omega

/-- Decoding back four big-endian bytes of a 32-bit value. -/
theorem u32be_round {v : Nat} (hv : v < 4294967296) (rest : List Nat) :
    be_u32 (u32be v ++ rest) = .ok (rest, v) := by
  simp only [u32be, List.cons_append, List.nil_append, be_u32, Except.ok.injEq,
    Prod.mk.injEq, true_and]
  omega

/-- Decoding back the bytes of one well-formed encoded label. -/
theorem parse_label_round {l : Label} (hg : goodLabel l) (rest : List Nat) :
    parse_domain_label (labelBytes l ++ rest) = .ok (rest, some l) := by
  obtain ⟨hne, hlen, hval⟩ := hg
  have hlpos : 0 < l.length := List.length_pos.mpr hne
  have h256 : l.length % 256 = l.length := Nat.mod_eq_of_lt (by omega)
  have hle : l.length ≤ (l ++ rest).length := by
    simp [List.length_append]
  simp only [labelBytes, List.cons_append, parse_domain_label, be_u8, h256]
  rw [if_neg (by omega)]
  simp [take_bytes, if_pos hle, List.take_left, List.drop_left, hval]

/-- Parsing after the byte run of a list of well-formed labels: the loop
consumes those labels and continues on the remaining input. -/
theorem dns_labels_body_append {ls : DnsLabels} (hg : ∀ l ∈ ls, goodLabel l)
    (input : List Nat) :
    dns_labels (labelsBody ls ++ input) =
      Except.map (fun p => (p.1, ls ++ p.2)) (dns_labels input) := by
  induction ls with
  | nil =>
    simp only [labelsBody, List.map_nil, List.flatten_nil, List.nil_append]
    cases hd : dns_labels input with
    | error e => simp [Except.map]
    | ok p => simp [Except.map]
  | cons l ls ih =>
    have hgl : goodLabel l := hg l (List.mem_cons_self l ls)
    have hbody : labelsBody (l :: ls) ++ input = labelBytes l ++ (labelsBody ls ++ input) := by
      simp [labelsBody, List.append_assoc]
    rw [hbody, dns_labels_some (parse_label_round hgl (labelsBody ls ++ input)),
      ih (fun x hx => hg x (List.mem_cons_of_mem l hx))]
    cases hd : dns_labels input with
    | error e => simp [Except.map]
    | ok p => simp [Except.map]

/-- Decoding back the encoding of a well-formed label sequence. -/
theorem dns_labels_round {ls : DnsLabels} (hg : ∀ l ∈ ls, goodLabel l)
    (rest : List Nat) :
    dns_labels (DnsLabels.to_bytes ls ++ rest) = .ok (rest, ls) := by
  have hz : parse_domain_label (0 :: rest) = .ok (rest, none) := by
    simp [parse_domain_label, be_u8]
  have h0 : dns_labels (0 :: rest) = .ok (rest, []) := dns_labels_none hz
  have : DnsLabels.to_bytes ls ++ rest = labelsBody ls ++ (0 :: rest) := by
    simp [DnsLabels.to_bytes, List.append_assoc]
  rw [this, dns_labels_body_append hg, h0]
  simp [Except.map]

/-- Bit-packing of flag byte 3 is invertible for in-range fields, and the
packed value fits in a byte (256 cases, checked by evaluation). -/
theorem flags1_spec (qr opcode aa tc rd : Nat) (h1 : qr < 2) (h2 : opcode < 16)
    (h3 : aa < 2) (h4 : tc < 2) (h5 : rd < 2) :
    (qr <<< 7 ||| opcode <<< 3 ||| aa <<< 2 ||| tc <<< 1 ||| rd) < 256 ∧
    (qr <<< 7 ||| opcode <<< 3 ||| aa <<< 2 ||| tc <<< 1 ||| rd) >>> 7 &&& 1 = qr ∧
    (qr <<< 7 ||| opcode <<< 3 ||| aa <<< 2 ||| tc <<< 1 ||| rd) >>> 3 &&& 15 = opcode ∧
    (qr <<< 7 ||| opcode <<< 3 ||| aa <<< 2 ||| tc <<< 1 ||| rd) >>> 2 &&& 1 = aa ∧
    (qr <<< 7 ||| opcode <<< 3 ||| aa <<< 2 ||| tc <<< 1 ||| rd) >>> 1 &&& 1 = tc ∧
    (qr <<< 7 ||| opcode <<< 3 ||| aa <<< 2 ||| tc <<< 1 ||| rd) &&& 1 = rd := by
  interval_cases qr <;> interval_cases opcode <;> interval_cases aa <;>
    interval_cases tc <;> interval_cases rd <;> decide

/-- Bit-packing of flag byte 4 is invertible for in-range fields, and the
packed value fits in a byte (256 cases, checked by evaluation). -/
theorem flags2_spec (ra z rcode : Nat) (h1 : ra < 2) (h2 : z < 8) (h3 : rcode < 16) :
    (ra <<< 7 ||| z <<< 4 ||| rcode) < 256 ∧
    (ra <<< 7 ||| z <<< 4 ||| rcode) >>> 7 &&& 1 = ra ∧
    (ra <<< 7 ||| z <<< 4 ||| rcode) >>> 4 &&& 7 = z ∧
    (ra <<< 7 ||| z <<< 4 ||| rcode) &&& 15 = rcode := by
  interval_cases ra <;> interval_cases z <;> interval_cases rcode <;> decide

/-- Decoding a header byte run with explicit flag bytes. -/
theorem dns_header_shape (i b2 b3 qd an ns ar : Nat) (rest : List Nat)
    (hi : i < 65536) (hqd : qd < 65536) (han : an < 65536) (hns : ns < 65536)
    (har : ar < 65536) :
    dns_header (u16be i ++ (b2 :: b3 :: (u16be qd ++ (u16be an ++ (u16be ns ++ (u16be ar ++ rest)))))) =
      .ok (rest, { id := i, qr := b2 >>> 7 &&& 1, opcode := b2 >>> 3 &&& 15,
                   aa := b2 >>> 2 &&& 1, tc := b2 >>> 1 &&& 1, rd := b2 &&& 1,
                   ra := b3 >>> 7 &&& 1, z := b3 >>> 4 &&& 7, rcode := b3 &&& 15,
                   qdcount := qd, ancount := an, nscount := ns, arcount := ar }) := by
  unfold dns_header
  simp only [u16be_round hi, dns_header_bits, u16be_round hqd, u16be_round han,
    u16be_round hns, u16be_round har]

/-- Decoding back the encoding of a well-formed header, leaving the rest. -/
theorem dns_header_round {hd : DnsHeader} (hg : goodHeader hd) (rest : List Nat) :
    dns_header (DnsHeader.to_bytes hd ++ rest) = .ok (rest, hd) := by
  obtain ⟨hid, hqr, hop, haa, htc, hrd, hra, hz, hrc, hqd, han, hns, har⟩ := hg
  obtain ⟨hb1, e1, e2, e3, e4, e5⟩ :=
    flags1_spec hd.qr hd.opcode hd.aa hd.tc hd.rd hqr hop haa htc hrd
  obtain ⟨hb2, f1, f2, f3⟩ := flags2_spec hd.ra hd.z hd.rcode hra hz hrc
  have hsh : DnsHeader.to_bytes hd ++ rest =
      u16be hd.id ++
        ((hd.qr <<< 7 ||| hd.opcode <<< 3 ||| hd.aa <<< 2 ||| hd.tc <<< 1 ||| hd.rd) % 256 ::
         (hd.ra <<< 7 ||| hd.z <<< 4 ||| hd.rcode) % 256 ::
         (u16be hd.qdcount ++ (u16be hd.ancount ++ (u16be hd.nscount ++ (u16be hd.arcount ++ rest))))) := by
    simp [DnsHeader.to_bytes, List.append_assoc]
  rw [hsh, dns_header_shape _ _ _ _ _ _ _ _ hid hqd han hns har,
    Nat.mod_eq_of_lt hb1, Nat.mod_eq_of_lt hb2, e1, e2, e3, e4, e5, f1, f2, f3]

/-- Decoding back the encoding of a well-formed question, leaving the rest. -/
theorem dns_question_round {q : DnsQuestion} (hg : goodQuestion q) (rest : List Nat) :
    dns_question (DnsQuestion.to_bytes q ++ rest) = .ok (rest, q) := by
  obtain ⟨hl, ht, hc⟩ := hg
  have hsh : DnsQuestion.to_bytes q ++ rest =
      DnsLabels.to_bytes q.qname ++ (u16be q.qtype ++ (u16be q.qclass ++ rest)) := by
    simp [DnsQuestion.to_bytes, List.append_assoc]
  rw [hsh]
  unfold dns_question
  simp only [dns_labels_round hl, u16be_round ht, u16be_round hc]

/-- Decoding back the encoding of a well-formed answer, leaving the rest. -/
theorem dns_answer_round {a : DnsAnswer} (hg : goodAnswer a) (rest : List Nat) :
    dns_answer (DnsAnswer.to_bytes a ++ rest) = .ok (rest, a) := by
  obtain ⟨hl, ht, hc, httl, hd⟩ := hg
  have hsh : DnsAnswer.to_bytes a ++ rest =
      DnsLabels.to_bytes a.name ++ (u16be a.answer_type ++ (u16be a.class_ ++
        (u32be a.ttl ++ (u16be a.data.length ++ (a.data ++ rest))))) := by
    simp [DnsAnswer.to_bytes, List.append_assoc]
  rw [hsh]
  unfold dns_answer
  simp only [dns_labels_round hl, u16be_round ht, u16be_round hc, u32be_round httl,
    u16be_round hd]
  have htake : take_bytes a.data.length (a.data ++ rest) = .ok (rest, a.data) := by
    simp only [take_bytes, List.take_left, List.drop_left,
      if_pos (by simp [List.length_append] : a.data.length ≤ (a.data ++ rest).length)]
  simp only [htake]

/-- nom `count` decodes back the concatenation of `n` encoded items when each
item's encoding decodes back to the item. -/
theorem pcount_round {α : Type} {p : List Nat → Except PErr (List Nat × α)}
    {enc : α → List Nat} {xs : List α}
    (h : ∀ x ∈ xs, ∀ r : List Nat, p (enc x ++ r) = .ok (r, x)) (rest : List Nat) :
    pcount p xs.length ((xs.map enc).flatten ++ rest) = .ok (rest, xs) := by
  induction xs with
  | nil => simp [pcount]
  | cons x xs ih =>
    have hsh : ((x :: xs).map enc).flatten ++ rest = enc x ++ ((xs.map enc).flatten ++ rest) := by
      simp [List.append_assoc]
    rw [List.length_cons, hsh]
    simp only [pcount, h x (List.mem_cons_self x xs),
      ih (fun y hy r => h y (List.mem_cons_of_mem x hy) r)]

/-- Round trip of the full message codec: decoding the encoding of any
well-formed message returns exactly the message with no residual bytes. -/
theorem dns_msg_round {m : DnsMessage} (hg : goodMessage m) :
    dns_msg (DnsMessage.to_bytes m) = .ok ([], m) := by
  obtain ⟨hh, hqd, han, hq, ha⟩ := hg
  have hsh : DnsMessage.to_bytes m =
      DnsHeader.to_bytes m.header ++
        ((m.questions.map DnsQuestion.to_bytes).flatten ++
          ((m.answers.map DnsAnswer.to_bytes).flatten ++ [])) := by
    simp [DnsMessage.to_bytes, List.append_assoc]
  rw [hsh]
  unfold dns_msg
  have hans := pcount_round (fun a hmem r => dns_answer_round (ha a hmem) r) ([] : List Nat)
  simp only [dns_header_round hh, hqd, han,
    pcount_round (fun q hmem r => dns_question_round (hq q hmem) r), hans]

/-- The zero length byte terminates an empty label run immediately. -/
theorem dns_labels_zero (tail : List Nat) : dns_labels (0 :: tail) = .ok (tail, []) :=
  dns_labels_none (by simp [parse_domain_label, be_u8])

/-- Facts about one successfully parsed label: it is non-empty, parsing
consumed input, the remaining input is part of the original, and on byte
input (every element below 256) the label is at most 255 bytes long. -/
theorem parse_label_props {input r : List Nat} {l : Label}
    (h : parse_domain_label input = .ok (r, some l)) :
    l ≠ [] ∧ r.length < input.length ∧ (∀ b ∈ r, b ∈ input) ∧
    ((∀ b ∈ input, b < 256) → l.length ≤ 255) := by
  rcases input with _ | ⟨b, tail⟩
  · simp [parse_domain_label, be_u8] at h
  · by_cases hb : b = 0
    · simp [parse_domain_label, be_u8, hb] at h
    · by_cases hle : b ≤ tail.length
      · by_cases hv : utf8Valid (tail.take b)
        · simp [parse_domain_label, be_u8, take_bytes, hb, hle, hv] at h
          obtain ⟨h1, h2⟩ := h
          subst h1
          subst h2
          refine ⟨?_, ?_, ?_, ?_⟩
          · have : (tail.take b).length = b := by
              simp [List.length_take]
              omega
            intro hnil
            rw [hnil] at this
            simp at this
            omega
          · simp only [List.length_drop, List.length_cons]
            omega
          · intro x hx
            exact List.mem_cons_of_mem b (List.mem_of_mem_drop hx)
          · intro hbound
            have hb256 : b < 256 := hbound b (List.mem_cons_self b tail)
            have : (tail.take b).length = b := by
              simp [List.length_take]
              omega
            omega
        · simp [parse_domain_label, be_u8, take_bytes, hb, hle, hv] at h
      · simp [parse_domain_label, be_u8, take_bytes, hb, hle] at h

/-- Invariant of the label decoder: every returned label is non-empty, and at
most 255 bytes long when the input consists of bytes. -/
theorem dns_labels_inv :
    ∀ (n : Nat) (input : List Nat), input.length ≤ n →
      ∀ rest ls, dns_labels input = .ok (rest, ls) →
        ∀ l ∈ ls, l ≠ [] ∧ ((∀ b ∈ input, b < 256) → l.length ≤ 255) := by
  intro n
  induction n with
  | zero =>
    intro input hlen rest ls hok l hmem
    have : input = [] := List.length_eq_zero.mp (Nat.le_zero.mp hlen)
    subst this
    have hnil : dns_labels [] = .error .Truncated :=
      dns_labels_err (show parse_domain_label [] = .error .Truncated from rfl)
    rw [hnil] at hok
    simp at hok
  | succ n ih =>
    intro input hlen rest ls hok l hmem
    cases hp : parse_domain_label input with
    | error e =>
      rw [dns_labels_err hp] at hok
      simp at hok
    | ok p =>
      obtain ⟨r, olabel⟩ := p
      cases olabel with
      | none =>
        rw [dns_labels_none hp] at hok
        simp only [Except.ok.injEq, Prod.mk.injEq] at hok
        obtain ⟨_, h2⟩ := hok
        subst h2
        simp at hmem
      | some l2 =>
        obtain ⟨hne, hlt, hsub, hbound⟩ := parse_label_props hp
        rw [dns_labels_some hp] at hok
        cases hrec : dns_labels r with
        | error e =>
          rw [hrec] at hok
          simp at hok
        | ok p2 =>
          obtain ⟨r2, ls2⟩ := p2
          rw [hrec] at hok
          simp only [Except.ok.injEq, Prod.mk.injEq] at hok
          obtain ⟨h1, h2⟩ := hok
          subst h1
          subst h2
          rcases List.mem_cons.mp hmem with hl | hl
          · subst hl
            exact ⟨hne, hbound⟩
          · have hr := ih r (by omega) _ ls2 hrec l hl
            exact ⟨hr.1, fun hb => hr.2 (fun x hx => hb x (hsub x hx))⟩

/-- Every label of a successfully decoded question is non-empty. -/
theorem dns_question_no_empty {input r : List Nat} {q : DnsQuestion}
    (h : dns_question input = .ok (r, q)) : ∀ l ∈ q.qname, l ≠ [] := by
  unfold dns_question at h
  split at h
  · simp at h
  · rename_i r1 nm heq
    split at h
    · simp at h
    · rename_i r2 t heq2
      split at h
      · simp at h
      · rename_i r3 c heq3
        simp only [Except.ok.injEq, Prod.mk.injEq] at h
        obtain ⟨_, h2⟩ := h
        subst h2
        intro l hmem
        exact (dns_labels_inv input.length input (Nat.le_refl _) r1 nm heq l hmem).1

/-- Every label of a successfully decoded answer is non-empty. -/
theorem dns_answer_no_empty {input r : List Nat} {a : DnsAnswer}
    (h : dns_answer input = .ok (r, a)) : ∀ l ∈ a.name, l ≠ [] := by
  unfold dns_answer at h
  split at h
  · simp at h
  · rename_i r1 nm heq
    split at h
    · simp at h
    · rename_i r2 t heq2
      split at h
      · simp at h
      · rename_i r3 c heq3
        split at h
        · simp at h
        · rename_i r4 ttl heq4
          split at h
          · simp at h
          · rename_i r5 len heq5
            split at h
            · simp at h
            · rename_i r6 data heq6
              simp only [Except.ok.injEq, Prod.mk.injEq] at h
              obtain ⟨_, h2⟩ := h
              subst h2
              intro l hmem
              exact (dns_labels_inv input.length input (Nat.le_refl _) r1 nm heq l hmem).1

/-- A property of each parsed item lifts through nom `count`. -/
theorem pcount_all {α : Type} {p : List Nat → Except PErr (List Nat × α)} {P : α → Prop}
    (hp : ∀ input r x, p input = .ok (r, x) → P x) :
    ∀ (n : Nat) (input r : List Nat) (xs : List α),
      pcount p n input = .ok (r, xs) → ∀ x ∈ xs, P x := by
  intro n
  induction n with
  | zero =>
    intro input r xs h x hmem
    simp only [pcount, Except.ok.injEq, Prod.mk.injEq] at h
    obtain ⟨_, h2⟩ := h
    subst h2
    simp at hmem
  | succ n ih =>
    intro input r xs h x hmem
    simp only [pcount] at h
    split at h
    · simp at h
    · rename_i r1 y heq
      split at h
      · simp at h
      · rename_i r2 ys heq2
        simp only [Except.ok.injEq, Prod.mk.injEq] at h
        obtain ⟨_, h2⟩ := h
        subst h2
        rcases List.mem_cons.mp hmem with hl | hl
        · subst hl
          exact hp input r1 x heq
        · exact ih r1 r2 ys heq2 x hl

/-- Invariant of the message decoder: no decoded record contains an
empty-string label. -/
theorem dns_msg_no_empty {bs rest : List Nat} {m : DnsMessage}
    (h : dns_msg bs = .ok (rest, m)) :
    (∀ q ∈ m.questions, ∀ l ∈ q.qname, l ≠ []) ∧
    (∀ a ∈ m.answers, ∀ l ∈ a.name, l ≠ []) := by
  unfold dns_msg at h
  split at h
  · simp at h
  · rename_i r1 hd heq
    split at h
    · simp at h
    · rename_i r2 qs heq2
      split at h
      · simp at h
      · rename_i r3 as2 heq3
        simp only [Except.ok.injEq, Prod.mk.injEq] at h
        obtain ⟨_, h2⟩ := h
        subst h2
        constructor
        · intro q hq
          exact pcount_all (fun input r x hx => dns_question_no_empty hx) _ _ _ _ heq2 q hq
        · intro a ha
          exact pcount_all (fun input r x hx => dns_answer_no_empty hx) _ _ _ _ heq3 a ha

/-- nom `count` with count 0 consumes nothing. -/
theorem pcount_zero {α : Type} (p : List Nat → Except PErr (List Nat × α))
    (input : List Nat) : pcount p 0 input = .ok (input, []) := rfl

/-- nom `count` with count 1 applies the parser once. -/
theorem pcount_one {α : Type} {p : List Nat → Except PErr (List Nat × α)}
    {input r : List Nat} {x : α} (h : p input = .ok (r, x)) :
    pcount p 1 input = .ok (r, [x]) := by
  show pcount p (0 + 1) input = .ok (r, [x])
  simp only [pcount, h]

/-- C1.  The round-trip property as stated fails for constructible messages:
amended to require the header bitfields to fit their declared widths and the
header counts to equal the actual record counts (plus the well-formed-label
and 16/32-bit side conditions `goodMessage` spells out), decoding the
encoding of a message returns exactly the message with no residual bytes. -/
theorem c1_round_trip (m : DnsMessage) (hg : goodMessage m) :
    dns_msg (DnsMessage.to_bytes m) = .ok ([], m) :=
  dns_msg_round hg

/-- C1 witness: the round trip at the message of the repository's own
`test_round_trip` test. -/
theorem c1_round_trip_witness :
    goodMessage testMessage ∧
    dns_msg (DnsMessage.to_bytes testMessage) = .ok ([], testMessage) :=
  ⟨by decide, c1_round_trip testMessage (by decide)⟩

/-- C1 counterexample: two constructed messages with well-formed text labels
whose decode-of-encode is not the identity: one whose `qr` field (2) exceeds
its 1-bit width, and one whose header count (`qdcount = 0`) disagrees with
its actual question list (one question), leaving residual bytes. -/
theorem c1_round_trip_cex :
    (∀ q ∈ cexBadQr.questions, ∀ l ∈ q.qname, goodLabel l) ∧
    (∀ a ∈ cexBadQr.answers, ∀ l ∈ a.name, goodLabel l) ∧
    dns_msg (DnsMessage.to_bytes cexBadQr) ≠ .ok ([], cexBadQr) ∧
    (∀ q ∈ cexBadCount.questions, ∀ l ∈ q.qname, goodLabel l) ∧
    (∀ a ∈ cexBadCount.answers, ∀ l ∈ a.name, goodLabel l) ∧
    dns_msg (DnsMessage.to_bytes cexBadCount) ≠ .ok ([], cexBadCount) := by
  refine ⟨by decide, by decide, ?_, by decide, by decide, ?_⟩
  · decide
  · decide

/-- C2.  The Response Builder `response` preserves the request's id, opcode
and recursion-desired flag, forces `qr = 1`, sets `rcode` to 0 exactly when
the opcode is 0 and to 4 otherwise, and always carries exactly one question
and one answer (both as actual records and as header counts). -/
theorem c2_response_invariants (req : DnsMessage) :
    (response req).header.id = req.header.id ∧
    (response req).header.opcode = req.header.opcode ∧
    (response req).header.rd = req.header.rd ∧
    (response req).header.qr = 1 ∧
    (response req).header.rcode = (if req.header.opcode = 0 then 0 else 4) ∧
    (response req).questions.length = 1 ∧
    (response req).answers.length = 1 ∧
    (response req).header.qdcount = 1 ∧
    (response req).header.ancount = 1 :=
  ⟨rfl, rfl, rfl, rfl, rfl, rfl, rfl, rfl, rfl⟩

/-- C3.  On a 26-byte datagram that the handler of src/main.rs successfully
decodes, the message the handler sends is not the Response Builder's output:
its query/response flag is 0 (still "query"), its header declares zero
questions and zero answers although it carries one question record, and the
sent bytes differ from encoding `response` of the decoded request. -/
theorem c3_handler_divergence :
    dns_msg c3_datagram = .ok (List.replicate 14 0, c3_decoded_request) ∧
    main_dns_header c3_datagram = .ok ([], c3_request) ∧
    main_handler c3_datagram =
      some (MainDnsMessage.to_bytes (main_handler_message c3_request)) ∧
    (main_handler_message c3_request).header.qr = 0 ∧
    (main_handler_message c3_request).header.qdcount = 0 ∧
    (main_handler_message c3_request).header.ancount = 0 ∧
    (main_handler_message c3_request).question.isSome = true ∧
    main_handler c3_datagram ≠
      some (DnsMessage.to_bytes (response c3_decoded_request)) := by
  refine ⟨by decide, by decide, by decide, by decide, by decide, by decide, by decide, ?_⟩
  decide

/-- C4.  Both header decoders fail with `Truncated` on any input of fewer
than 12 bytes (they are total functions, so no panic and no out-of-bounds
read can occur). -/
theorem c4_truncated (input : List Nat) (h : input.length < 12) :
    dns_header input = .error .Truncated ∧ main_dns_header input = .error .Truncated := by
  rcases input with _ | ⟨b0, _ | ⟨b1, _ | ⟨b2, _ | ⟨b3, _ | ⟨b4, _ | ⟨b5, _ | ⟨b6, _ | ⟨b7, _ | ⟨b8, _ | ⟨b9, _ | ⟨b10, _ | ⟨b11, rest⟩⟩⟩⟩⟩⟩⟩⟩⟩⟩⟩⟩ <;>
    first
      | exact ⟨rfl, rfl⟩
      | (exfalso
         simp only [List.length_cons] at h
         omega)

/-- C4 witness: a 3-byte input. -/
theorem c4_truncated_witness :
    ([0, 0, 0] : List Nat).length < 12 ∧
    dns_header [0, 0, 0] = .error .Truncated ∧
    main_dns_header [0, 0, 0] = .error .Truncated :=
  ⟨by decide, (c4_truncated [0, 0, 0] (by decide)).1, (c4_truncated [0, 0, 0] (by decide)).2⟩

/-- C5.  When the decoded header declares `qdcount = 1` and `ancount = 0` and
one question parses, the message decoder returns exactly that question and no
answers, leaving whatever follows the question unconsumed; the repetition
count comes only from the header fields. -/
theorem c5_count_driven (input r1 r2 : List Nat) (hd : DnsHeader) (q : DnsQuestion)
    (h1 : dns_header input = .ok (r1, hd)) (h2 : hd.qdcount = 1) (h3 : hd.ancount = 0)
    (h4 : dns_question r1 = .ok (r2, q)) :
    dns_msg input = .ok (r2, { header := hd, questions := [q], answers := [] }) := by
  unfold dns_msg
  simp only [h1, h2, h3, pcount_one h4, pcount_zero]

/-- C5 witness: a concrete datagram with one question and two trailing junk
bytes, which remain unconsumed. -/
theorem c5_count_driven_witness :
    dns_header c5_datagram = .ok (c5_body, c5_hdr) ∧
    c5_hdr.qdcount = 1 ∧ c5_hdr.ancount = 0 ∧
    dns_question c5_body = .ok ([9, 9], c5_q) ∧
    dns_msg c5_datagram = .ok ([9, 9], { header := c5_hdr, questions := [c5_q], answers := [] }) := by
  have hq : dns_question c5_body = .ok ([9, 9], c5_q) :=
    @dns_question_round c5_q (by decide) [9, 9]
  exact ⟨by decide, by decide, by decide, hq,
    c5_count_driven c5_datagram c5_body [9, 9] c5_hdr c5_q (by decide) (by decide) (by decide) hq⟩

/-- C6.  After any run of well-formed labels: a nonzero length byte whose
following bytes are present but not valid text makes the label decoder fail
with `MalformedLabel`, while a zero length byte makes it stop and return the
accumulated label sequence together with the remaining input. -/
theorem c6_label_errors (ls : DnsLabels) (len : Nat) (tail : List Nat)
    (hls : ∀ l ∈ ls, goodLabel l) (hlen : len ≠ 0) (hle : len ≤ tail.length)
    (hbad : utf8Valid (tail.take len) = false) :
    dns_labels (labelsBody ls ++ len :: tail) = .error .MalformedLabel ∧
    dns_labels (labelsBody ls ++ 0 :: tail) = .ok (tail, ls) := by
  constructor
  · have hp : parse_domain_label (len :: tail) = .error .MalformedLabel := by
      simp [parse_domain_label, be_u8, hlen, take_bytes, hle, hbad]
    rw [dns_labels_body_append hls, dns_labels_err hp]
    rfl
  · rw [dns_labels_body_append hls, dns_labels_zero]
    simp [Except.map]

/-- C6 witness: after the well-formed label "io", length byte 1 followed by
the invalid byte 255 fails with `MalformedLabel`; a zero byte instead stops
and returns the label "io" plus the remaining input. -/
theorem c6_label_errors_witness :
    (∀ l ∈ [ioLabel], goodLabel l) ∧ (1 : Nat) ≠ 0 ∧
    1 ≤ ([255, 7] : List Nat).length ∧
    utf8Valid (([255, 7] : List Nat).take 1) = false ∧
    dns_labels (labelsBody [ioLabel] ++ 1 :: [255, 7]) = .error .MalformedLabel ∧
    dns_labels (labelsBody [ioLabel] ++ 0 :: [255, 7]) = .ok ([255, 7], [ioLabel]) := by
  have h := c6_label_errors [ioLabel] 1 [255, 7] (by decide) (by decide) (by decide) (by decide)
  exact ⟨by decide, by decide, by decide, by decide, h.1, h.2⟩

/-- C7.  For flag fields within their bit widths, byte 3 (index 2) of the
encoded header is `(qr<<7)|(opcode<<3)|(aa<<2)|(tc<<1)|rd` and byte 4
(index 3) is `(ra<<7)|(z<<4)|rcode`. -/
theorem c7_bit_packing (hd : DnsHeader) (hqr : hd.qr < 2) (hop : hd.opcode < 16)
    (haa : hd.aa < 2) (htc : hd.tc < 2) (hrd : hd.rd < 2) (hra : hd.ra < 2)
    (hz : hd.z < 8) (hrc : hd.rcode < 16) :
    (DnsHeader.to_bytes hd).get? 2 =
      some (hd.qr <<< 7 ||| hd.opcode <<< 3 ||| hd.aa <<< 2 ||| hd.tc <<< 1 ||| hd.rd) ∧
    (DnsHeader.to_bytes hd).get? 3 =
      some (hd.ra <<< 7 ||| hd.z <<< 4 ||| hd.rcode) := by
  obtain ⟨hb1, _⟩ := flags1_spec hd.qr hd.opcode hd.aa hd.tc hd.rd hqr hop haa htc hrd
  obtain ⟨hb2, _⟩ := flags2_spec hd.ra hd.z hd.rcode hra hz hrc
  constructor
  · simp [DnsHeader.to_bytes, u16be, Nat.mod_eq_of_lt hb1]
  · simp [DnsHeader.to_bytes, u16be, Nat.mod_eq_of_lt hb2]

/-- C7 witness: with `qr = 1` and all other flag fields 0, byte 3 of the
encoding is 0x80 (128) and byte 4 is 0x00. -/
theorem c7_bit_packing_witness :
    (DnsHeader.to_bytes c7_hdr).get? 2 = some 128 ∧
    (DnsHeader.to_bytes c7_hdr).get? 3 = some 0 := by
  have h := c7_bit_packing c7_hdr (by decide) (by decide) (by decide) (by decide)
    (by decide) (by decide) (by decide) (by decide)
  refine ⟨?_, ?_⟩
  · rw [h.1]
    decide
  · rw [h.2]
    decide

/-- C8.  The answer decoder reads the name, 2-byte type, 2-byte class, 4-byte
ttl and 2-byte rdata length, then consumes exactly that many rdata bytes, and
fails with `Truncated` exactly when the declared length exceeds the remaining
input. -/
theorem c8_answer_decode (input r1 rest : List Nat) (nm : DnsLabels) (t c ttl len : Nat)
    (hlab : dns_labels input = .ok (r1, nm))
    (hr1 : r1 = u16be t ++ u16be c ++ u32be ttl ++ u16be len ++ rest)
    (ht : t < 65536) (hc : c < 65536) (httl : ttl < 4294967296) (hlen : len < 65536) :
    dns_answer input =
      if len ≤ rest.length
      then .ok (rest.drop len,
        { name := nm, answer_type := t, class_ := c, ttl := ttl, data := rest.take len })
      else .error .Truncated := by
  subst hr1
  have hsh : u16be t ++ u16be c ++ u32be ttl ++ u16be len ++ rest =
      u16be t ++ (u16be c ++ (u32be ttl ++ (u16be len ++ rest))) := by
    simp [List.append_assoc]
  rw [hsh] at hlab
  unfold dns_answer
  simp only [hlab, u16be_round ht, u16be_round hc, u32be_round httl, u16be_round hlen,
    take_bytes]
  by_cases hle : len ≤ rest.length <;> simp [hle]

/-- C8 witness: an answer record with an empty name, type 1, class 1, ttl 60
and declared rdata length 4 but only 2 remaining bytes fails with
`Truncated`. -/
theorem c8_answer_decode_witness :
    dns_labels c8_input = .ok (c8_body, []) ∧
    dns_answer c8_input = .error .Truncated := by
  have h := c8_answer_decode c8_input c8_body [8, 8] [] 1 1 60 4
    (dns_labels_zero c8_body) rfl (by decide) (by decide) (by decide) (by decide)
  refine ⟨dns_labels_zero c8_body, ?_⟩
  rw [h]
  decide

/-- C10.  Every label returned by the label decoder on byte input is
non-empty and at most 255 bytes long; consequently a message containing an
empty-string label can never be recovered by decoding its own encoding. -/
theorem c10_no_empty_labels :
    (∀ (input rest : List Nat) (ls : DnsLabels), (∀ b ∈ input, b < 256) →
      dns_labels input = .ok (rest, ls) → ∀ l ∈ ls, l ≠ [] ∧ l.length ≤ 255) ∧
    (∀ m : DnsMessage, hasEmptyLabel m →
      ∀ rest : List Nat, dns_msg (DnsMessage.to_bytes m) ≠ .ok (rest, m)) := by
  constructor
  · intro input rest ls hb hok l hmem
    have h := dns_labels_inv input.length input (Nat.le_refl _) rest ls hok l hmem
    exact ⟨h.1, h.2 hb⟩
  · intro m hempty rest hok
    have h := dns_msg_no_empty hok
    rcases hempty with ⟨q, hq, hmem⟩ | ⟨a, ha, hmem⟩
    · exact h.1 q hq [] hmem rfl
    · exact h.2 a ha [] hmem rfl

/-- C10 witness: decoding the byte run of the label "io" yields only
non-empty labels of length at most 255, and the concrete message with an
empty-string label is not recovered by decoding its encoding. -/
theorem c10_no_empty_labels_witness :
    (∀ b ∈ ([2, 105, 111, 0] : List Nat), b < 256) ∧
    dns_labels [2, 105, 111, 0] = .ok ([], [ioLabel]) ∧
    (∀ l ∈ [ioLabel], l ≠ [] ∧ List.length l ≤ 255) ∧
    hasEmptyLabel c10_empty_msg ∧
    dns_msg (DnsMessage.to_bytes c10_empty_msg) ≠ .ok ([], c10_empty_msg) := by
  have hio : dns_labels [2, 105, 111, 0] = .ok ([], [ioLabel]) := by
    have h := @dns_labels_round [ioLabel] (by decide) []
    rw [List.append_nil] at h
    exact h
  exact ⟨by decide, hio,
    c10_no_empty_labels.1 [2, 105, 111, 0] [] [ioLabel] (by decide) hio,
    by decide,
    c10_no_empty_labels.2 c10_empty_msg (by decide) []⟩

end DnsRepo
